import Mathlib

/-!
Shallow embedding of the `rust-geojson` parse/validate/serialize core.

The generic JSON substrate (serde_json) is modelled by `JsonValue`; JSON
objects are `serde_json::Map<String, JsonValue>`, which this crate uses in
its BTreeMap form (the crate's own unit tests show serialized keys in
sorted order), so `JsonObject` is an association list kept sorted by key,
with `jsonObjInsert` the sorted insert-or-replace and `jsonObjGet` lookup.
JSON numbers (f64 values) are carried opaquely through the pipeline and are
modelled as rationals so that equality is decidable; no claim depends on
floating-point arithmetic.

Files `macros.rs`, `util.rs`, `feature.rs` and `feature_collection.rs` are
declared in `lib.rs` but absent from the sources; definitions translated
from them are modelled from the spec and say so in their doc comments.
-/

/-- serde_json's generic JSON value tree (external substrate, spec §2). -/
inductive JsonValue where
  | null : JsonValue
  | bool : Bool → JsonValue
  | number : Rat → JsonValue
  | string : String → JsonValue
  | array : List JsonValue → JsonValue
  | object : List (String × JsonValue) → JsonValue

/-- `JsonObject = serde_json::Map<String, JsonValue>` (lib.rs:245), in its
BTreeMap form: an association list sorted by key. -/
abbrev JsonObject : Type := List (String × JsonValue)

/-- BTreeMap lookup: first binding for the key (keys are unique when the
list is sorted). -/
def jsonObjGet (o : JsonObject) (k : String) : Option JsonValue :=
  match o with
  | [] => none
  | (k1, v1) :: rest => if k = k1 then some v1 else jsonObjGet rest k

/-- BTreeMap insert: place the binding at its sorted position, replacing an
existing binding for the same key. -/
def jsonObjInsert (o : JsonObject) (k : String) (v : JsonValue) : JsonObject :=
  match o with
  | [] => [(k, v)]
  | (k1, v1) :: rest =>
    if k < k1 then (k, v) :: (k1, v1) :: rest
    else if k = k1 then (k, v) :: rest
    else (k1, v1) :: jsonObjInsert rest k v

/-- The BTreeMap representation invariant: keys strictly increasing. -/
def SortedKeys (o : JsonObject) : Prop :=
  o.Pairwise (fun p q => p.1 < q.1)

instance : DecidablePred SortedKeys := fun o =>
  List.instDecidablePairwise o

/-- The error taxonomy, lib.rs:149-167. -/
inductive Error where
  | BboxExpectedArray : Error
  | BboxExpectedNumericValues : Error
  | CrsExpectedObject : Error
  | CrsUnknownType : String → Error
  | GeoJsonExpectedObject : Error
  | GeoJsonUnknownType : Error
  | GeometryUnknownType : Error
  | MalformedJson : Error
  | PropertiesExpectedObjectOrNull : Error
  | FeatureInvalidGeometryValue : Error
  | ExpectedStringValue : Error
  | ExpectedProperty : Error
  | ExpectedF64Value : Error
  | ExpectedArrayValue : Error
  | ExpectedObjectValue : Error
deriving DecidableEq

/-- Positions (lib.rs:117): an ordered list of numbers. -/
abbrev Position : Type := List Rat

abbrev PointType : Type := Position

abbrev LineStringType : Type := List Position

abbrev PolygonType : Type := List (List Position)

/-- Bounding boxes (lib.rs:111): a flat list of numbers. -/
abbrev Bbox : Type := List Rat

/-- Coordinate Reference System objects, crs.rs:26-38. -/
inductive Crs where
  | named : String → Crs
  | linked : String → Option String → Crs
deriving DecidableEq

/-- Modelled from the spec: `macros.rs` is absent from the sources; §4.1
`require(object, key)` — the value at `key`, or `ExpectedProperty` if
absent (macro `expect_property!`). -/
def expect_property (o : JsonObject) (k : String) : Except Error JsonValue :=
  match jsonObjGet o k with
  | some v => Except.ok v
  | none => Except.error Error.ExpectedProperty

/-- Modelled from the spec: `macros.rs` is absent; §4.1 `as_string`
(macro `expect_string!`). -/
def expect_string : JsonValue → Except Error String
  | JsonValue.string s => Except.ok s
  | _ => Except.error Error.ExpectedStringValue

/-- Modelled from the spec: `macros.rs` is absent; §4.1 `as_object`
(macro `expect_object!`). -/
def expect_object : JsonValue → Except Error JsonObject
  | JsonValue.object o => Except.ok o
  | _ => Except.error Error.ExpectedObjectValue

/-- Modelled from the spec: `macros.rs` is absent; §4.1 `as_array`
(macro `expect_array!`). -/
def expect_array : JsonValue → Except Error (List JsonValue)
  | JsonValue.array a => Except.ok a
  | _ => Except.error Error.ExpectedArrayValue

/-- Modelled from the spec: `macros.rs` is absent; §4.1 `as_f64`
(macro `expect_f64!`). -/
def expect_f64 : JsonValue → Except Error Rat
  | JsonValue.number q => Except.ok q
  | _ => Except.error Error.ExpectedF64Value

/-- §4.1 `type_of(object)`: `require(object,"type")` then `as_string`; this
composition is also written out verbatim at geojson.rs:65. -/
def type_of (o : JsonObject) : Except Error String := do
  expect_string (← expect_property o "type")

/-- `impl From<&Crs> for JsonObject`, crs.rs:40-63. -/
def Crs.to_object : Crs → JsonObject
  | Crs.named name =>
    let crs_map := jsonObjInsert [] "type" (JsonValue.string "name")
    let properties_map := jsonObjInsert [] "name" (JsonValue.string name)
    jsonObjInsert crs_map "properties" (JsonValue.object properties_map)
  | Crs.linked href type_ =>
    let crs_map := jsonObjInsert [] "type" (JsonValue.string "link")
    let properties_map := jsonObjInsert [] "href" (JsonValue.string href)
    let properties_map :=
      match type_ with
      | some t => jsonObjInsert properties_map "type" (JsonValue.string t)
      | none => properties_map
    jsonObjInsert crs_map "properties" (JsonValue.object properties_map)

/-- `impl FromObject for Crs`, crs.rs:65-99: read `type`, then extract
`properties` as an object, then match the type string. -/
def Crs.from_object (o : JsonObject) : Except Error Crs := do
  let type_ ← type_of o
  let properties ← expect_object (← expect_property o "properties")
  match type_ with
  | "name" => do
    let name ← expect_string (← expect_property properties "name")
    return Crs.named name
  | "link" => do
    let href ← expect_string (← expect_property properties "href")
    let t ← match jsonObjGet properties "type" with
      | some v => Except.map some (expect_string v)
      | none => pure none
    return Crs.linked href t
  | t => Except.error (Error.CrsUnknownType t)

mutual
/-- The underlying Geometry value, geometry.rs:21-63, mutually inductive
with `Geometry` through the recursive `GeometryCollection` variant. -/
inductive Value where
  | point : PointType → Value
  | multiPoint : List PointType → Value
  | lineString : LineStringType → Value
  | multiLineString : List LineStringType → Value
  | polygon : PolygonType → Value
  | multiPolygon : List PolygonType → Value
  | geometryCollection : List Geometry → Value

/-- Geometry objects, geometry.rs:92-98: bbox, foreign_members, value, crs. -/
inductive Geometry where
  | mk : Option Bbox → Option JsonObject → Value → Option Crs → Geometry
end

/-- Field `bbox` of `Geometry` (geometry.rs:94). -/
def Geometry.bbox : Geometry → Option Bbox
  | Geometry.mk b _ _ _ => b

/-- Field `foreign_members` of `Geometry` (geometry.rs:95). -/
def Geometry.foreign_members : Geometry → Option JsonObject
  | Geometry.mk _ f _ _ => f

/-- Field `value` of `Geometry` (geometry.rs:96). -/
def Geometry.value : Geometry → Value
  | Geometry.mk _ _ v _ => v

/-- Field `crs` of `Geometry` (geometry.rs:97). -/
def Geometry.crs : Geometry → Option Crs
  | Geometry.mk _ _ _ c => c

/-- `Geometry::new`, geometry.rs:103-110. -/
def Geometry.new (value : Value) : Geometry :=
  Geometry.mk none none value none

/-- The canonical `type` string of a value's variant, geometry.rs:128-136. -/
def Value.typeName : Value → String
  | Value.point _ => "Point"
  | Value.multiPoint _ => "MultiPoint"
  | Value.lineString _ => "LineString"
  | Value.multiLineString _ => "MultiLineString"
  | Value.polygon _ => "Polygon"
  | Value.multiPolygon _ => "MultiPolygon"
  | Value.geometryCollection _ => "GeometryCollection"

/-- The key under which the payload is emitted, geometry.rs:140-143. -/
def Value.payloadKey : Value → String
  | Value.geometryCollection _ => "geometries"
  | _ => "coordinates"

/-- serde_json serialization of one position (a `Vec<f64>`). -/
def positionToJson (p : Position) : JsonValue :=
  JsonValue.array (p.map JsonValue.number)

mutual
/-- `impl From<&Value> for JsonValue`, geometry.rs:65-78: the result of
`serde_json::to_value` on each variant's coordinate payload, and, for
`GeometryCollection`, on the `Vec<Geometry>` whose elements serialize
through `From<&Geometry> for JsonObject`. -/
def Value.toJson : Value → JsonValue
  | Value.point c => positionToJson c
  | Value.multiPoint c => JsonValue.array (c.map positionToJson)
  | Value.lineString c => JsonValue.array (c.map positionToJson)
  | Value.multiLineString c =>
    JsonValue.array (c.map (fun l => JsonValue.array (l.map positionToJson)))
  | Value.polygon c =>
    JsonValue.array (c.map (fun l => JsonValue.array (l.map positionToJson)))
  | Value.multiPolygon c =>
    JsonValue.array (c.map (fun pg =>
      JsonValue.array (pg.map (fun l => JsonValue.array (l.map positionToJson)))))
  | Value.geometryCollection gs => JsonValue.array (geometriesToJson gs)

/-- serde_json serialization of a `Vec<Geometry>`, elementwise. -/
def geometriesToJson : List Geometry → List JsonValue
  | [] => []
  | g :: rest => JsonValue.object (Geometry.to_object g) :: geometriesToJson rest

/-- `impl From<&Geometry> for JsonObject`, geometry.rs:113-148: insert
`crs` if present, `bbox` if present, then every foreign member in stored
order, then `type`, then the payload under `coordinates`/`geometries`. -/
def Geometry.to_object : Geometry → JsonObject
  | Geometry.mk bbox fm value crs =>
    let map0 : JsonObject := []
    let map1 :=
      match crs with
      | some c => jsonObjInsert map0 "crs" (JsonValue.object (Crs.to_object c))
      | none => map0
    let map2 :=
      match bbox with
      | some b => jsonObjInsert map1 "bbox" (JsonValue.array (b.map JsonValue.number))
      | none => map1
    let map3 :=
      match fm with
      | some l => l.foldl (fun acc kv => jsonObjInsert acc kv.1 kv.2) map2
      | none => map2
    let map4 := jsonObjInsert map3 "type" (JsonValue.string (Value.typeName value))
    jsonObjInsert map4 (Value.payloadKey value) (Value.toJson value)
end

/-- Modelled from the spec: `util.rs` is absent; §4.2 innermost level of the
coordinate walk — an array of numbers makes one Position. -/
def json_to_position (v : JsonValue) : Except Error Position := do
  let a ← expect_array v
  a.mapM expect_f64

/-- Modelled from the spec: `util.rs` is absent; §4.2 — extract the
required `coordinates` key. -/
def get_coords_value (o : JsonObject) : Except Error JsonValue :=
  expect_property o "coordinates"

/-- Modelled from the spec: `util.rs` is absent; §4.2 depth-0 walk
(`util::get_coords_one_pos`, for Point). -/
def get_coords_one_pos (o : JsonObject) : Except Error PointType := do
  json_to_position (← get_coords_value o)

/-- Modelled from the spec: `util.rs` is absent; §4.2 depth-1 walk
(`util::get_coords_1d_pos`, for MultiPoint/LineString). -/
def get_coords_1d_pos (o : JsonObject) : Except Error (List PointType) := do
  (← expect_array (← get_coords_value o)).mapM json_to_position

/-- Modelled from the spec: `util.rs` is absent; §4.2 depth-2 walk
(`util::get_coords_2d_pos`, for MultiLineString/Polygon). -/
def get_coords_2d_pos (o : JsonObject) : Except Error (List LineStringType) := do
  (← expect_array (← get_coords_value o)).mapM (fun v => do
    (← expect_array v).mapM json_to_position)

/-- Modelled from the spec: `util.rs` is absent; §4.2 depth-3 walk
(`util::get_coords_3d_pos`, for MultiPolygon). -/
def get_coords_3d_pos (o : JsonObject) : Except Error (List PolygonType) := do
  (← expect_array (← get_coords_value o)).mapM (fun v => do
    (← expect_array v).mapM (fun w => do
      (← expect_array w).mapM json_to_position))

/-- Modelled from the spec: `util.rs` is absent; §4.2 optional `bbox` —
array of numbers, else `BboxExpectedArray`/`BboxExpectedNumericValues`
(`util::get_bbox`). -/
def get_bbox (o : JsonObject) : Except Error (Option Bbox) :=
  match jsonObjGet o "bbox" with
  | none => Except.ok none
  | some (JsonValue.array a) =>
    Except.map some (a.mapM (fun v =>
      match v with
      | JsonValue.number q => Except.ok q
      | _ => Except.error Error.BboxExpectedNumericValues))
  | some _ => Except.error Error.BboxExpectedArray

/-- Modelled from the spec: `util.rs` is absent; §4.2 optional `crs` —
object delegated to the CRS model, else `CrsExpectedObject`
(`util::get_crs`). -/
def get_crs (o : JsonObject) : Except Error (Option Crs) :=
  match jsonObjGet o "crs" with
  | none => Except.ok none
  | some (JsonValue.object co) => Except.map some (Crs.from_object co)
  | some _ => Except.error Error.CrsExpectedObject

/-- The reserved keys of a geometry object, spec §3 invariant 2. -/
def geometryReservedKeys : List String :=
  ["type", "coordinates", "geometries", "bbox", "crs"]

/-- Modelled from the spec: `util.rs` is absent; §4.2/§3 invariant 2 —
whatever remains after the typed fields becomes the foreign members, in
stored key order; absent when nothing remains (`util::get_foreign_members`). -/
def get_foreign_members (o : JsonObject) : Except Error (Option JsonObject) :=
  let rest := o.filter (fun kv => decide (kv.1 ∉ geometryReservedKeys))
  if rest.isEmpty then Except.ok none else Except.ok (some rest)

mutual
/-- `impl FromObject for Geometry`, geometry.rs:150-175: read `type`,
compute the value (`Geometry.from_object`'s `let value = match type_`,
split out as `geometryValueFromObject`), then extract bbox, foreign
members and crs. -/
def Geometry.from_object (o : JsonObject) : Except Error Geometry :=
  match type_of o with
  | Except.error e => Except.error e
  | Except.ok type_ =>
    match geometryValueFromObject type_ o with
    | Except.error e => Except.error e
    | Except.ok value =>
      match get_bbox o with
      | Except.error e => Except.error e
      | Except.ok bbox =>
        match get_foreign_members o with
        | Except.error e => Except.error e
        | Except.ok fm =>
          match get_crs o with
          | Except.error e => Except.error e
          | Except.ok crs => Except.ok (Geometry.mk bbox fm value crs)
termination_by (sizeOf o, 1)

/-- The `let value = match type_ { ... }` of geometry.rs:153-162: the seven
geometry kinds (coordinate walks at their depth per §4.2, the recursive
`geometries` parse for GeometryCollection), else `GeometryUnknownType`. -/
def geometryValueFromObject (type_ : String) (o : JsonObject) : Except Error Value :=
  match type_ with
  | "Point" => Except.map Value.point (get_coords_one_pos o)
  | "MultiPoint" => Except.map Value.multiPoint (get_coords_1d_pos o)
  | "LineString" => Except.map Value.lineString (get_coords_1d_pos o)
  | "MultiLineString" => Except.map Value.multiLineString (get_coords_2d_pos o)
  | "Polygon" => Except.map Value.polygon (get_coords_2d_pos o)
  | "MultiPolygon" => Except.map Value.multiPolygon (get_coords_3d_pos o)
  | "GeometryCollection" =>
    match h1 : jsonObjGet o "geometries" with
    | some (JsonValue.array a) =>
      Except.map Value.geometryCollection (parseGeometryList a)
    | some _ => Except.error Error.ExpectedArrayValue
    | none => Except.error Error.ExpectedProperty
  | _ => Except.error Error.GeometryUnknownType
termination_by (sizeOf o, 0)
decreasing_by
  have key : ∀ (m : JsonObject) (k : String) (v : JsonValue),
      jsonObjGet m k = some v → sizeOf v < sizeOf m := by
    intro m k v h
    induction m with
    | nil => simp [jsonObjGet] at h
    | cons hd tl ih =>
      obtain ⟨k1, v1⟩ := hd
      unfold jsonObjGet at h
      by_cases hk : k = k1
      · simp [hk] at h
        subst h
        simp
        omega
      · simp [hk] at h
        have := ih h
        simp
        omega
  have h2 := key _ _ _ h1
  simp at h2
  exact Prod.Lex.left _ _ (by omega)

/-- Modelled from the spec: `util.rs` is absent; §4.2 `geometries` — parse
each element of the array recursively as a full Geometry object
(`util::get_geometries`, elementwise). -/
def parseGeometryList (l : List JsonValue) : Except Error (List Geometry) :=
  match l with
  | [] => Except.ok []
  | JsonValue.object go :: rest =>
    match Geometry.from_object go with
    | Except.error e => Except.error e
    | Except.ok g =>
      match parseGeometryList rest with
      | Except.error e => Except.error e
      | Except.ok gs => Except.ok (g :: gs)
  | _ :: _ => Except.error Error.ExpectedObjectValue
termination_by (sizeOf l, 0)
end

/-- A feature identifier, spec §3: optional (string or number). -/
inductive FeatureId where
  | str : String → FeatureId
  | num : Rat → FeatureId
deriving DecidableEq

/-- Feature objects. Modelled from the spec: `feature.rs` is absent; spec
§3 with the field list evidenced by the doc example at lib.rs:88-94
(`crs`, `bbox`, `geometry`, `id`, `properties`). -/
structure Feature where
  crs : Option Crs
  bbox : Option Bbox
  geometry : Option Geometry
  id : Option FeatureId
  properties : Option JsonObject

/-- FeatureCollection objects. Modelled from the spec: the file
`feature_collection.rs` is absent; spec §3. -/
structure FeatureCollection where
  bbox : Option Bbox
  crs : Option Crs
  features : List Feature
  foreign_members : Option JsonObject

/-- Modelled from the spec: `feature.rs` is absent; §4.4 Feature parse —
`geometry` optional, object or explicit null, else
`FeatureInvalidGeometryValue`; `properties` optional, object or null, else
`PropertiesExpectedObjectOrNull`; `id`, `bbox`, `crs` follow the optional
extraction discipline of §4.2. -/
def Feature.from_object (o : JsonObject) : Except Error Feature :=
  Except.bind
    (match jsonObjGet o "geometry" with
      | none => Except.ok none
      | some JsonValue.null => Except.ok none
      | some (JsonValue.object go) => Except.map some (Geometry.from_object go)
      | some _ => Except.error Error.FeatureInvalidGeometryValue)
    (fun geometry => Except.bind
      (match jsonObjGet o "properties" with
        | none => Except.ok none
        | some JsonValue.null => Except.ok none
        | some (JsonValue.object po) => Except.ok (some po)
        | some _ => Except.error Error.PropertiesExpectedObjectOrNull)
      (fun properties => Except.bind
        (match jsonObjGet o "id" with
          | none => Except.ok none
          | some (JsonValue.string s) => Except.ok (some (FeatureId.str s))
          | some (JsonValue.number q) => Except.ok (some (FeatureId.num q))
          | some _ => Except.error Error.ExpectedStringValue)
        (fun id => Except.bind (get_bbox o)
          (fun bbox => Except.bind (get_crs o)
            (fun crs => Except.ok (Feature.mk crs bbox geometry id properties))))))

/-- The reserved keys of a feature-collection object, spec §3 invariant 2. -/
def featureCollectionReservedKeys : List String :=
  ["type", "features", "bbox", "crs"]

/-- Modelled from the spec: `feature_collection.rs` is absent; §4.4 —
`features` is required, an array whose elements each parse as a Feature,
the first element failure propagating. -/
def FeatureCollection.from_object (o : JsonObject) : Except Error FeatureCollection :=
  Except.bind
    (match jsonObjGet o "features" with
      | none => Except.error Error.ExpectedProperty
      | some (JsonValue.array a) =>
        a.mapM (fun v =>
          match v with
          | JsonValue.object fo => Feature.from_object fo
          | _ => Except.error Error.ExpectedObjectValue)
      | some _ => Except.error Error.ExpectedArrayValue)
    (fun features => Except.bind (get_bbox o)
      (fun bbox => Except.bind (get_crs o)
        (fun crs =>
          let fm := o.filter (fun kv => decide (kv.1 ∉ featureCollectionReservedKeys))
          Except.ok (FeatureCollection.mk bbox crs features
            (if fm.isEmpty then none else some fm)))))

/-- Serialization of a Feature. Modelled from the spec: `feature.rs` is
absent; §4.4 serialize mirrors §4.2's canonical-order emission with
`geometry`/`properties`/`id` in place of the payload, optional fields
emitted only when present (§9). -/
def Feature.to_object (f : Feature) : JsonObject :=
  let map0 : JsonObject := []
  let map1 := match f.crs with
    | some c => jsonObjInsert map0 "crs" (JsonValue.object (Crs.to_object c))
    | none => map0
  let map2 := match f.bbox with
    | some b => jsonObjInsert map1 "bbox" (JsonValue.array (b.map JsonValue.number))
    | none => map1
  let map3 := jsonObjInsert map2 "type" (JsonValue.string "Feature")
  let map4 := match f.geometry with
    | some g => jsonObjInsert map3 "geometry" (JsonValue.object (Geometry.to_object g))
    | none => map3
  let map5 := match f.properties with
    | some p => jsonObjInsert map4 "properties" (JsonValue.object p)
    | none => map4
  match f.id with
  | some (FeatureId.str s) => jsonObjInsert map5 "id" (JsonValue.string s)
  | some (FeatureId.num q) => jsonObjInsert map5 "id" (JsonValue.number q)
  | none => map5

/-- Serialization of a FeatureCollection. Modelled from the spec:
`feature_collection.rs` is absent; §4.4 serialize with `features` in place
of the payload. -/
def FeatureCollection.to_object (fc : FeatureCollection) : JsonObject :=
  let map0 : JsonObject := []
  let map1 := match fc.crs with
    | some c => jsonObjInsert map0 "crs" (JsonValue.object (Crs.to_object c))
    | none => map0
  let map2 := match fc.bbox with
    | some b => jsonObjInsert map1 "bbox" (JsonValue.array (b.map JsonValue.number))
    | none => map1
  let map3 := match fc.foreign_members with
    | some l => l.foldl (fun acc kv => jsonObjInsert acc kv.1 kv.2) map2
    | none => map2
  let map4 := jsonObjInsert map3 "type" (JsonValue.string "FeatureCollection")
  jsonObjInsert map4 "features"
    (JsonValue.array (fc.features.map (fun f => JsonValue.object (Feature.to_object f))))

/-- GeoJSON Objects: the top-level union, geojson.rs:28-32. -/
inductive GeoJson where
  | geometry : Geometry → GeoJson
  | feature : Feature → GeoJson
  | featureCollection : FeatureCollection → GeoJson

/-- `impl From<&GeoJson> for JsonObject`, geojson.rs:34-42: delegate to the
active model. -/
def GeoJson.to_object : GeoJson → JsonObject
  | GeoJson.geometry g => Geometry.to_object g
  | GeoJson.feature f => Feature.to_object f
  | GeoJson.featureCollection fc => FeatureCollection.to_object fc

/-- `impl FromObject for GeoJson`, geojson.rs:63-80: read the `type`
string and route. The match lists exactly six geometry kind strings —
`"GeometryCollection"` is NOT among them and falls to the catch-all. -/
def GeoJson.from_object (o : JsonObject) : Except Error GeoJson :=
  match Except.bind (expect_property o "type") expect_string with
  | Except.error e => Except.error e
  | Except.ok type_ =>
    match type_ with
    | "Point" => Except.map GeoJson.geometry (Geometry.from_object o)
    | "MultiPoint" => Except.map GeoJson.geometry (Geometry.from_object o)
    | "LineString" => Except.map GeoJson.geometry (Geometry.from_object o)
    | "MultiLineString" => Except.map GeoJson.geometry (Geometry.from_object o)
    | "Polygon" => Except.map GeoJson.geometry (Geometry.from_object o)
    | "MultiPolygon" => Except.map GeoJson.geometry (Geometry.from_object o)
    | "Feature" => Except.map GeoJson.feature (Feature.from_object o)
    | "FeatureCollection" =>
      Except.map GeoJson.featureCollection (FeatureCollection.from_object o)
    | _ => Except.error Error.GeoJsonUnknownType

/-- `get_object`, geojson.rs:113-124. The external serde_json text decoder
is out of scope (spec §1 non-goals); its outcome is the argument: `none`
when the text is not valid JSON, `some v` for the decoded top-level value.
A decode failure or a non-object top-level value is `MalformedJson`. -/
def get_object (decoded : Option JsonValue) : Except Error JsonObject :=
  match decoded with
  | none => Except.error Error.MalformedJson
  | some (JsonValue.object o) => Except.ok o
  | some _ => Except.error Error.MalformedJson

/-- `impl FromStr for GeoJson`, geojson.rs:103-111: `get_object`, then
`GeoJson::from_object`. -/
def GeoJson.from_str (decoded : Option JsonValue) : Except Error GeoJson :=
  match get_object decoded with
  | Except.error e => Except.error e
  | Except.ok o => GeoJson.from_object o

/-- The GeometryCollection value from the crate's own unit test
`encode_decode_geometry_collection` (geometry.rs:236-266). -/
def gcTestGeometry : Geometry :=
  Geometry.mk none none
    (Value.geometryCollection
      [Geometry.mk none none (Value.point [100, 0]) none,
       Geometry.mk none none (Value.lineString [[101, 0], [102, 1]]) none])
    none

/-- The document `{"type":"Circle","coordinates":[0,0]}` as a parsed JSON
object (sorted key order, as serde_json's BTreeMap holds it). -/
def circleObj : JsonObject :=
  [("coordinates", JsonValue.array [JsonValue.number 0, JsonValue.number 0]),
   ("type", JsonValue.string "Circle")]

/-- serde_json serialization of one `Vec<f64>` with its `Result` channel
explicit: the leaf f64/collect steps of serde_json never return `Err`. -/
def positionToJsonChecked (p : Position) : Except String JsonValue :=
  Except.map JsonValue.array (p.mapM (fun q => Except.ok (JsonValue.number q)))

/-- `to_value` of a `Vec<Position>`, `Result` channel explicit. -/
def positionsToJsonChecked (c : List Position) : Except String JsonValue :=
  Except.map JsonValue.array (c.mapM positionToJsonChecked)

/-- `to_value` of a `Vec<Vec<Position>>`, `Result` channel explicit. -/
def positions2ToJsonChecked (c : List (List Position)) : Except String JsonValue :=
  Except.map JsonValue.array (c.mapM positionsToJsonChecked)

/-- `to_value` of a `Vec<Vec<Vec<Position>>>`, `Result` channel explicit. -/
def positions3ToJsonChecked (c : List (List (List Position))) : Except String JsonValue :=
  Except.map JsonValue.array (c.mapM positions2ToJsonChecked)

mutual
/-- geometry.rs:65-78, `impl From<&Value> for JsonValue`, with the
`serde_json::to_value` `Result` threaded instead of `.unwrap()`-ed, so that
the reachability of the unwrap's error branch can be stated. -/
def Value.toJsonChecked : Value → Except String JsonValue
  | Value.point c => positionToJsonChecked c
  | Value.multiPoint c => positionsToJsonChecked c
  | Value.lineString c => positionsToJsonChecked c
  | Value.multiLineString c => positions2ToJsonChecked c
  | Value.polygon c => positions2ToJsonChecked c
  | Value.multiPolygon c => positions3ToJsonChecked c
  | Value.geometryCollection gs =>
    Except.map JsonValue.array (geometriesToJsonChecked gs)

/-- `to_value` of a `Vec<Geometry>`, elementwise, `Result` threaded. -/
def geometriesToJsonChecked : List Geometry → Except String (List JsonValue)
  | [] => Except.ok []
  | g :: rest =>
    match Geometry.toObjectChecked g with
    | Except.error e => Except.error e
    | Except.ok go =>
      match geometriesToJsonChecked rest with
      | Except.error e => Except.error e
      | Except.ok gos => Except.ok (JsonValue.object go :: gos)

/-- geometry.rs:113-148 with the recursive `to_value(&geometry.value)`
call's `Result` threaded (the crs/bbox/type payloads are leaf string,
number and map serializations, which serde_json serializes infallibly). -/
def Geometry.toObjectChecked : Geometry → Except String JsonObject
  | Geometry.mk bbox fm value crs =>
    let map0 : JsonObject := []
    let map1 :=
      match crs with
      | some c => jsonObjInsert map0 "crs" (JsonValue.object (Crs.to_object c))
      | none => map0
    let map2 :=
      match bbox with
      | some b => jsonObjInsert map1 "bbox" (JsonValue.array (b.map JsonValue.number))
      | none => map1
    let map3 :=
      match fm with
      | some l => l.foldl (fun acc kv => jsonObjInsert acc kv.1 kv.2) map2
      | none => map2
    let map4 := jsonObjInsert map3 "type" (JsonValue.string (Value.typeName value))
    match Value.toJsonChecked value with
    | Except.error e => Except.error e
    | Except.ok payload =>
      Except.ok (jsonObjInsert map4 (Value.payloadKey value) payload)
end

/-- The document `{"type":"Point","coordinates":[1.1,2.1],"foo":"bar"}` as
serde_json's BTreeMap holds it (keys sorted). -/
def fooPointObj : JsonObject :=
  [("coordinates", JsonValue.array [JsonValue.number 1.1, JsonValue.number 2.1]),
   ("foo", JsonValue.string "bar"),
   ("type", JsonValue.string "Point")]

/-- The Geometry that document parses to: a Point with one foreign member. -/
def fooPointGeom : Geometry :=
  Geometry.mk none (some [("foo", JsonValue.string "bar")])
    (Value.point [1.1, 2.1]) none

/-- A binding looked up in an object is structurally smaller than the
object. -/
theorem sizeOf_jsonObjGet {o : JsonObject} {k : String} {v : JsonValue}
    (h : jsonObjGet o k = some v) : sizeOf v < sizeOf o := by
  induction o with
  | nil => simp [jsonObjGet] at h
  | cons hd tl ih =>
    obtain ⟨k1, v1⟩ := hd
    unfold jsonObjGet at h
    by_cases hk : k = k1
    · simp [hk] at h
      subst h
      simp
      omega
    · simp [hk] at h
      have := ih h
      simp
      omega

/-- C1: the round-trip claim FAILS on the code for a Geometry whose value is
a GeometryCollection: serializing it and parsing the result through the
top-level dispatcher does not give the value back; it fails with
`GeoJsonUnknownType`, because `GeoJson::from_object` (geojson.rs:66-78)
routes only six geometry kind strings and `"GeometryCollection"` falls
to the catch-all. The crate's own test
`encode_decode_geometry_collection` (geometry.rs:236-266) asserts that
exactly this round trip succeeds, so the code contradicts its own test. -/
theorem roundtrip_geometryCollection_fails_with_GeoJsonUnknownType :
    GeoJson.from_object (GeoJson.to_object (GeoJson.geometry gcTestGeometry)) =
      Except.error Error.GeoJsonUnknownType := by
  simp [gcTestGeometry, GeoJson.to_object, Geometry.to_object, Value.toJson,
    geometriesToJson, Value.typeName, Value.payloadKey, positionToJson, jsonObjInsert,
    GeoJson.from_object, expect_property, expect_string, jsonObjGet,
    Except.map, Bind.bind, Except.bind, pure, Except.pure]

/-- C2: the dispatcher routing claim FAILS on the code: of the seven
geometry kind strings, `GeoJson::from_object` routes only six to
`Geometry::from_object`; the string `"GeometryCollection"` falls to the
catch-all and fails with `GeoJsonUnknownType`, even though
`Geometry::from_object` itself accepts the very same object. -/
theorem dispatcher_rejects_GeometryCollection :
    GeoJson.from_object
        [("geometries", JsonValue.array []),
         ("type", JsonValue.string "GeometryCollection")] =
      Except.error Error.GeoJsonUnknownType ∧
    Geometry.from_object
        [("geometries", JsonValue.array []),
         ("type", JsonValue.string "GeometryCollection")] =
      Except.ok (Geometry.mk none none (Value.geometryCollection []) none) := by
  constructor
  · simp [GeoJson.from_object, expect_property, expect_string, jsonObjGet,
      Except.map, Bind.bind, Except.bind, pure, Except.pure]
  · simp [Geometry.from_object, geometryValueFromObject, parseGeometryList, type_of,
      expect_property, expect_string, jsonObjGet, get_bbox, get_foreign_members, get_crs,
      geometryReservedKeys, Except.map, Bind.bind, Except.bind, pure, Except.pure,
      List.filter]

/-- C3 counterexample: parsing `{"type":"Circle","coordinates":[0,0]}` (the
full text-level parse) does NOT fail with `GeometryUnknownType` as the
claim states; the top-level dispatcher fails with `GeoJsonUnknownType`
first, since `"Circle"` is not one of the six routed geometry strings. -/
theorem circle_toplevel_not_GeometryUnknownType :
    GeoJson.from_str (some (JsonValue.object circleObj)) ≠
      Except.error Error.GeometryUnknownType ∧
    GeoJson.from_str (some (JsonValue.object circleObj)) =
      Except.error Error.GeoJsonUnknownType := by
  have h : GeoJson.from_str (some (JsonValue.object circleObj)) =
      Except.error Error.GeoJsonUnknownType := by
    simp [circleObj, GeoJson.from_str, get_object, GeoJson.from_object,
      expect_property, expect_string, jsonObjGet,
      Except.map, Bind.bind, Except.bind, pure, Except.pure]
  refine ⟨?_, h⟩
  rw [h]
  simp

/-- C3 amended: at the top level both
`{"type":"Circle","coordinates":[0,0]}` and `{"type":"Foo"}` fail with
`GeoJsonUnknownType`; it is the Geometry model's own parser
(`Geometry::from_object`) that fails on the Circle object with
`GeometryUnknownType`. -/
theorem circle_and_foo_unknown_types :
    GeoJson.from_str (some (JsonValue.object circleObj)) =
      Except.error Error.GeoJsonUnknownType ∧
    Geometry.from_object circleObj = Except.error Error.GeometryUnknownType ∧
    GeoJson.from_str (some (JsonValue.object [("type", JsonValue.string "Foo")])) =
      Except.error Error.GeoJsonUnknownType := by
  refine ⟨?_, ?_, ?_⟩
  · simp [circleObj, GeoJson.from_str, get_object, GeoJson.from_object,
      expect_property, expect_string, jsonObjGet,
      Except.map, Bind.bind, Except.bind, pure, Except.pure]
  · simp [circleObj, Geometry.from_object, geometryValueFromObject, type_of,
      expect_property, expect_string, jsonObjGet,
      Except.map, Bind.bind, Except.bind, pure, Except.pure]
  · simp [GeoJson.from_str, get_object, GeoJson.from_object,
      expect_property, expect_string, jsonObjGet,
      Except.map, Bind.bind, Except.bind, pure, Except.pure]

/-- C9: `Crs::from_object` extracts `properties` before matching the `type`
string (crs.rs:67-71): whenever the object has a `type` string but no
`properties` key, parsing fails with `ExpectedProperty`, whatever the
type string is, so an unrecognized type reports `ExpectedProperty`, not
`CrsUnknownType`. -/
theorem crs_missing_properties_is_ExpectedProperty (o : JsonObject) (s : String)
    (hty : jsonObjGet o "type" = some (JsonValue.string s))
    (hprops : jsonObjGet o "properties" = none) :
    Crs.from_object o = Except.error Error.ExpectedProperty := by
  simp [Crs.from_object, type_of, expect_property, expect_string, hty, hprops,
    Bind.bind, Except.bind, pure, Except.pure]

/-- Witness for C9 at `{"type":"bogus"}`: the hypotheses hold and the parse
reports `ExpectedProperty` (in particular not `CrsUnknownType`). -/
theorem crs_missing_properties_is_ExpectedProperty_witness :
    jsonObjGet [("type", JsonValue.string "bogus")] "type" =
      some (JsonValue.string "bogus") ∧
    jsonObjGet [("type", JsonValue.string "bogus")] "properties" = none ∧
    Crs.from_object [("type", JsonValue.string "bogus")] =
      Except.error Error.ExpectedProperty :=
  ⟨by simp [jsonObjGet], by simp [jsonObjGet],
    crs_missing_properties_is_ExpectedProperty _ "bogus"
      (by simp [jsonObjGet]) (by simp [jsonObjGet])⟩

/-- C5 counterexample: `{"type":"bogus"}` has a `type` string that is
neither "name" nor "link", yet the CRS parser does NOT fail with
`CrsUnknownType("bogus")`; it fails with `ExpectedProperty`, because
`properties` is extracted before the type string is matched. -/
theorem crs_unknown_type_claim_counterexample :
    Crs.from_object [("type", JsonValue.string "bogus")] ≠
      Except.error (Error.CrsUnknownType "bogus") ∧
    Crs.from_object [("type", JsonValue.string "bogus")] =
      Except.error Error.ExpectedProperty := by
  have h : Crs.from_object [("type", JsonValue.string "bogus")] =
      Except.error Error.ExpectedProperty := by
    simp [Crs.from_object, type_of, expect_property, expect_string, jsonObjGet,
      Bind.bind, Except.bind, pure, Except.pure]
  exact ⟨by rw [h]; simp, h⟩

/-- C5 amended: for every object whose `properties` key holds an object and
whose `type` string is neither "name" nor "link", CRS parsing fails with
`CrsUnknownType` carrying the offending string; and `CrsUnknownType` is
the only variant of the error taxonomy that carries a payload (every
error is one of the fourteen nullary variants or a `CrsUnknownType t`). -/
theorem crs_unknown_type_with_properties (o : JsonObject) (s : String)
    (props : JsonObject)
    (hty : jsonObjGet o "type" = some (JsonValue.string s))
    (hprops : jsonObjGet o "properties" = some (JsonValue.object props))
    (hname : s ≠ "name") (hlink : s ≠ "link") :
    Crs.from_object o = Except.error (Error.CrsUnknownType s) ∧
    ∀ e : Error, (∃ t, e = Error.CrsUnknownType t) ∨
      e = Error.BboxExpectedArray ∨ e = Error.BboxExpectedNumericValues ∨
      e = Error.CrsExpectedObject ∨ e = Error.GeoJsonExpectedObject ∨
      e = Error.GeoJsonUnknownType ∨ e = Error.GeometryUnknownType ∨
      e = Error.MalformedJson ∨ e = Error.PropertiesExpectedObjectOrNull ∨
      e = Error.FeatureInvalidGeometryValue ∨ e = Error.ExpectedStringValue ∨
      e = Error.ExpectedProperty ∨ e = Error.ExpectedF64Value ∨
      e = Error.ExpectedArrayValue ∨ e = Error.ExpectedObjectValue := by
  constructor
  · simp only [Crs.from_object, type_of, expect_property, hty, expect_string,
      hprops, expect_object, Bind.bind, Except.bind]
  · intro e
    cases e with
    | CrsUnknownType t => exact Or.inl ⟨t, rfl⟩
    | _ => simp

/-- Witness for the C5 amended theorem at
`{"type":"bogus","properties":{}}`: hypotheses hold and the parse yields
`CrsUnknownType "bogus"`. -/
theorem crs_unknown_type_with_properties_witness :
    Crs.from_object
        [("properties", JsonValue.object []), ("type", JsonValue.string "bogus")] =
      Except.error (Error.CrsUnknownType "bogus") :=
  (crs_unknown_type_with_properties
      [("properties", JsonValue.object []), ("type", JsonValue.string "bogus")]
      "bogus" []
      (by simp [jsonObjGet]) (by simp [jsonObjGet])
      (by simp) (by simp)).1

/-- C7: a `Point` object whose `coordinates` is a nested array of arrays
(first element itself an array, e.g. `[[1,2]]`) fails to parse with
`ExpectedF64Value`, one of the generic `Expected*Value` errors, both
through `Geometry::from_object` and through the top-level dispatcher; it
never coerces silently. -/
theorem point_nested_coordinates_rejected (o : JsonObject)
    (a rest : List JsonValue)
    (hty : jsonObjGet o "type" = some (JsonValue.string "Point"))
    (hco : jsonObjGet o "coordinates" =
      some (JsonValue.array (JsonValue.array a :: rest))) :
    Geometry.from_object o = Except.error Error.ExpectedF64Value ∧
    GeoJson.from_object o = Except.error Error.ExpectedF64Value := by
  have h : Geometry.from_object o = Except.error Error.ExpectedF64Value := by
    simp [Geometry.from_object, geometryValueFromObject, type_of, get_coords_one_pos,
      get_coords_value, json_to_position, expect_property, hty, hco, expect_string,
      expect_array, expect_f64, Except.map, Bind.bind, Except.bind, pure, Except.pure,
      List.mapM, List.mapM.loop]
  refine ⟨h, ?_⟩
  simp [GeoJson.from_object, expect_property, hty, expect_string,
    Bind.bind, Except.bind, h, Except.map]

/-- Witness for C7 at `{"type":"Point","coordinates":[[1,2]]}`. -/
theorem point_nested_coordinates_rejected_witness :
    Geometry.from_object
        [("coordinates", JsonValue.array
           [JsonValue.array [JsonValue.number 1, JsonValue.number 2]]),
         ("type", JsonValue.string "Point")] =
      Except.error Error.ExpectedF64Value :=
  (point_nested_coordinates_rejected
      [("coordinates", JsonValue.array
         [JsonValue.array [JsonValue.number 1, JsonValue.number 2]]),
       ("type", JsonValue.string "Point")]
      [JsonValue.number 1, JsonValue.number 2] []
      (by simp [jsonObjGet]) (by simp [jsonObjGet])).1

/-- Elementwise-ok functions lift through `mapM.loop` on `Except`. -/
theorem mapM_loop_ok_of_ok {α β : Type} {f : α → Except String β} {g : α → β}
    (hf : ∀ x, f x = Except.ok (g x)) :
    ∀ (l : List α) (acc : List β),
      List.mapM.loop f l acc = Except.ok (acc.reverse ++ l.map g) := by
  intro l
  induction l with
  | nil => intro acc; simp [List.mapM.loop, pure, Except.pure]
  | cons x xs ih =>
    intro acc
    simp [List.mapM.loop, hf, Bind.bind, Except.bind, ih]

/-- `positionToJsonChecked` never fails and agrees with `positionToJson`. -/
theorem positionToJsonChecked_ok (p : Position) :
    positionToJsonChecked p = Except.ok (positionToJson p) := by
  simp [positionToJsonChecked, positionToJson, List.mapM, Except.map,
    mapM_loop_ok_of_ok (fun q => rfl) p []]

/-- `positionsToJsonChecked` never fails. -/
theorem positionsToJsonChecked_ok (c : List Position) :
    positionsToJsonChecked c = Except.ok (JsonValue.array (c.map positionToJson)) := by
  simp [positionsToJsonChecked, List.mapM, Except.map,
    mapM_loop_ok_of_ok positionToJsonChecked_ok c []]

/-- `positions2ToJsonChecked` never fails. -/
theorem positions2ToJsonChecked_ok (c : List (List Position)) :
    positions2ToJsonChecked c =
      Except.ok (JsonValue.array
        (c.map (fun l => JsonValue.array (l.map positionToJson)))) := by
  simp [positions2ToJsonChecked, List.mapM, Except.map,
    mapM_loop_ok_of_ok positionsToJsonChecked_ok c []]

/-- `positions3ToJsonChecked` never fails. -/
theorem positions3ToJsonChecked_ok (c : List (List (List Position))) :
    positions3ToJsonChecked c =
      Except.ok (JsonValue.array (c.map (fun pg =>
        JsonValue.array (pg.map (fun l => JsonValue.array (l.map positionToJson)))))) := by
  simp [positions3ToJsonChecked, List.mapM, Except.map,
    mapM_loop_ok_of_ok positions2ToJsonChecked_ok c []]

/-- Size-indexed simultaneous statement that the checked serializers never
fail and agree with the total serializers, for values, geometries and
geometry lists. -/
theorem toJsonChecked_ok_upto (n : Nat) :
    (∀ v : Value, sizeOf v ≤ n →
      Value.toJsonChecked v = Except.ok (Value.toJson v)) ∧
    (∀ g : Geometry, sizeOf g ≤ n →
      Geometry.toObjectChecked g = Except.ok (Geometry.to_object g)) ∧
    (∀ l : List Geometry, sizeOf l ≤ n →
      geometriesToJsonChecked l = Except.ok (geometriesToJson l)) := by
  induction n using Nat.strong_induction_on with
  | _ n ih =>
    refine ⟨?_, ?_, ?_⟩
    · intro v hv
      cases v with
      | point c => simp [Value.toJsonChecked, Value.toJson, positionToJsonChecked_ok]
      | multiPoint c => simp [Value.toJsonChecked, Value.toJson, positionsToJsonChecked_ok]
      | lineString c => simp [Value.toJsonChecked, Value.toJson, positionsToJsonChecked_ok]
      | multiLineString c =>
        simp [Value.toJsonChecked, Value.toJson, positions2ToJsonChecked_ok]
      | polygon c => simp [Value.toJsonChecked, Value.toJson, positions2ToJsonChecked_ok]
      | multiPolygon c =>
        simp [Value.toJsonChecked, Value.toJson, positions3ToJsonChecked_ok]
      | geometryCollection gs =>
        have hsz : sizeOf gs < n := by
          have : sizeOf gs < sizeOf (Value.geometryCollection gs) := by first | (simp; omega) | simp
          omega
        have hgs := (ih (sizeOf gs) hsz).2.2 gs le_rfl
        simp [Value.toJsonChecked, Value.toJson, hgs, Except.map]
    · intro g hg
      obtain ⟨bbox, fm, value, crs⟩ := g
      have hsz : sizeOf value < n := by
        have : sizeOf value < sizeOf (Geometry.mk bbox fm value crs) := by first | (simp; omega) | simp
        omega
      have hval := (ih (sizeOf value) hsz).1 value le_rfl
      simp [Geometry.toObjectChecked, Geometry.to_object, hval]
    · intro l hl
      cases l with
      | nil => simp [geometriesToJsonChecked, geometriesToJson]
      | cons g rest =>
        have hg : sizeOf g < n := by
          have : sizeOf g < sizeOf (g :: rest) := by first | (simp; omega) | simp
          omega
        have hrest : sizeOf rest < n := by
          have : sizeOf rest < sizeOf (g :: rest) := by first | (simp; omega) | simp
          omega
        have h1 := (ih (sizeOf g) hg).2.1 g le_rfl
        have h2 := (ih (sizeOf rest) hrest).2.2 rest le_rfl
        simp [geometriesToJsonChecked, geometriesToJson, h1, h2]

/-- C10: converting any Geometry `Value` to a generic JSON value is total
and never panics: with serde_json's `Result` channel made explicit, the
conversion of geometry.rs:65-78 succeeds on every `Value` of every
variant, including arbitrarily nested GeometryCollections, and agrees
with the total serializer, so the `.unwrap()`'s error branch at
geometry.rs:76 is unreachable. -/
theorem value_to_json_never_fails (v : Value) :
    Value.toJsonChecked v = Except.ok (Value.toJson v) :=
  (toJsonChecked_ok_upto (sizeOf v)).1 v le_rfl

/-- Lookup after insert: the inserted key maps to the new value, all other
keys are untouched (regardless of sortedness). -/
theorem jsonObjGet_insert (m : JsonObject) (k k2 : String) (v : JsonValue) :
    jsonObjGet (jsonObjInsert m k v) k2 = if k2 = k then some v else jsonObjGet m k2 := by
  induction m with
  | nil => simp [jsonObjInsert, jsonObjGet]
  | cons hd t ih =>
    obtain ⟨k1, v1⟩ := hd
    by_cases h1 : k < k1
    · simp [jsonObjInsert, h1, jsonObjGet]
    · by_cases h2 : k = k1
      · subst h2
        by_cases h3 : k2 = k
        · simp [jsonObjInsert, h1, h3, jsonObjGet]
        · simp [jsonObjInsert, h1, h3, jsonObjGet]
      · by_cases h3 : k2 = k1
        · subst h3
          simp [jsonObjInsert, h1, h2, jsonObjGet, ih, Ne.symm h2]
        · simp [jsonObjInsert, h1, h2, jsonObjGet, h3, ih]

/-- A key bound in no entry looks up to `none`. -/
theorem jsonObjGet_eq_none_of_not_mem (m : JsonObject) (k : String)
    (h : ∀ p ∈ m, p.1 ≠ k) : jsonObjGet m k = none := by
  induction m with
  | nil => rfl
  | cons hd t ih =>
    obtain ⟨k1, v1⟩ := hd
    have hne : k ≠ k1 := fun he => (h (k1, v1) (by simp)) (by simp [he.symm])
    simp [jsonObjGet, hne]
    exact ih (fun p hp => h p (by simp [hp]))

/-- A successful lookup names a key of some entry. -/
theorem jsonObjGet_some_mem (m : JsonObject) (k : String) (v : JsonValue)
    (h : jsonObjGet m k = some v) : ∃ p ∈ m, p.1 = k := by
  induction m with
  | nil => simp [jsonObjGet] at h
  | cons hd t ih =>
    obtain ⟨k1, v1⟩ := hd
    by_cases he : k = k1
    · exact ⟨(k1, v1), by simp, he.symm⟩
    · simp [jsonObjGet, he] at h
      obtain ⟨p, hp, hpk⟩ := ih h
      exact ⟨p, by simp [hp], hpk⟩

/-- Filtering on keys commutes with lookup of a key the filter keeps. -/
theorem jsonObjGet_filter (p : String → Bool) (m : JsonObject) (k : String)
    (hk : p k = true) :
    jsonObjGet (m.filter (fun kv => p kv.1)) k = jsonObjGet m k := by
  induction m with
  | nil => rfl
  | cons hd t ih =>
    obtain ⟨k1, v1⟩ := hd
    by_cases h1 : p k1
    · simp [List.filter, h1, jsonObjGet, ih]
    · have hne : k ≠ k1 := fun he => by rw [he] at hk; simp [hk] at h1
      simp [List.filter, h1, jsonObjGet, hne, ih]

/-- Lookup through a fold of inserts of a key-distinct list: the folded list
takes precedence, entrywise. -/
theorem jsonObjGet_foldl_insert (l : JsonObject)
    (hdist : l.Pairwise (fun p q => p.1 ≠ q.1)) (m : JsonObject) (k : String) :
    jsonObjGet (l.foldl (fun acc kv => jsonObjInsert acc kv.1 kv.2) m) k =
      (jsonObjGet l k).or (jsonObjGet m k) := by
  induction l generalizing m with
  | nil => simp [jsonObjGet]
  | cons hd t ih =>
    obtain ⟨k1, v1⟩ := hd
    rw [List.pairwise_cons] at hdist
    have ihm := ih hdist.2 (jsonObjInsert m k1 v1)
    simp only [List.foldl_cons] at ihm ⊢
    rw [ihm, jsonObjGet_insert]
    by_cases he : k = k1
    · subst he
      have : jsonObjGet t k = none :=
        jsonObjGet_eq_none_of_not_mem t k (fun p hp => (hdist.1 p hp).symm)
      simp [jsonObjGet, this]
    · simp [jsonObjGet, he]

/-- Insert keeps membership within the original entries plus the new one. -/
theorem jsonObjInsert_mem (m : JsonObject) (k : String) (v : JsonValue) :
    ∀ p ∈ jsonObjInsert m k v, p ∈ m ∨ p = (k, v) := by
  induction m with
  | nil => simp [jsonObjInsert]
  | cons hd t ih =>
    obtain ⟨k1, v1⟩ := hd
    intro p hp
    by_cases h1 : k < k1
    · simp [jsonObjInsert, h1] at hp
      rcases hp with h | h | h
      · exact Or.inr (by simp [h])
      · exact Or.inl (by simp [h])
      · exact Or.inl (by simp [h])
    · by_cases h2 : k = k1
      · subst h2
        simp [jsonObjInsert, h1] at hp
        rcases hp with h | h
        · exact Or.inr (by simp [h])
        · exact Or.inl (by simp [h])
      · simp [jsonObjInsert, h1, h2] at hp
        rcases hp with h | h
        · exact Or.inl (by simp [h])
        · rcases ih p h with h3 | h3
          · exact Or.inl (by simp [h3])
          · exact Or.inr h3

/-- Insert preserves the sorted-keys invariant. -/
theorem SortedKeys.insert {m : JsonObject} (h : SortedKeys m) (k : String)
    (v : JsonValue) : SortedKeys (jsonObjInsert m k v) := by
  induction m with
  | nil =>
    show SortedKeys [(k, v)]
    exact List.pairwise_singleton _ _
  | cons hd t ih =>
    obtain ⟨k1, v1⟩ := hd
    have hh := List.pairwise_cons.mp h
    rcases lt_trichotomy k k1 with h1 | h1 | h1
    · have hins : jsonObjInsert ((k1, v1) :: t) k v = (k, v) :: (k1, v1) :: t := by
        simp [jsonObjInsert, h1]
      rw [hins, SortedKeys, List.pairwise_cons]
      refine ⟨?_, h⟩
      intro p hp
      rcases List.mem_cons.mp hp with h2 | h2
      · rw [h2]; exact h1
      · exact lt_trans h1 (hh.1 p h2)
    · subst h1
      have hins : jsonObjInsert ((k, v1) :: t) k v = (k, v) :: t := by
        simp [jsonObjInsert, lt_irrefl]
      rw [hins, SortedKeys, List.pairwise_cons]
      exact ⟨hh.1, hh.2⟩
    · have hins : jsonObjInsert ((k1, v1) :: t) k v =
          (k1, v1) :: jsonObjInsert t k v := by
        simp [jsonObjInsert, not_lt.mpr (le_of_lt h1), (ne_of_gt h1 : k ≠ k1)]
      rw [hins, SortedKeys, List.pairwise_cons]
      refine ⟨?_, ih hh.2⟩
      intro p hp
      rcases jsonObjInsert_mem t k v p hp with h3 | h3
      · exact hh.1 p h3
      · rw [h3]; exact h1

/-- Two sorted objects with identical lookups are identical. -/
theorem sortedKeys_ext {a b : JsonObject} (ha : SortedKeys a) (hb : SortedKeys b)
    (h : ∀ k, jsonObjGet a k = jsonObjGet b k) : a = b := by
  induction a generalizing b with
  | nil =>
    cases b with
    | nil => rfl
    | cons hd t =>
      obtain ⟨k1, v1⟩ := hd
      have := h k1
      simp [jsonObjGet] at this
  | cons hd t ih =>
    obtain ⟨k1, v1⟩ := hd
    cases b with
    | nil =>
      have := h k1
      simp [jsonObjGet] at this
    | cons hd2 t2 =>
      obtain ⟨k2, v2⟩ := hd2
      rw [SortedKeys, List.pairwise_cons] at ha hb
      rcases lt_trichotomy k1 k2 with hlt | heq | hgt
      · exfalso
        have h1 := h k1
        have h2 : jsonObjGet ((k2, v2) :: t2) k1 = none := by
          apply jsonObjGet_eq_none_of_not_mem
          intro p hp
          rcases List.mem_cons.mp hp with h3 | h3
          · simp [h3]; exact (ne_of_lt hlt).symm
          · exact (ne_of_lt (lt_trans hlt (hb.1 p h3))).symm
        rw [h2] at h1
        simp [jsonObjGet] at h1
      · subst heq
        have h1 := h k1
        simp [jsonObjGet] at h1
        subst h1
        have ht : ∀ k, jsonObjGet t k = jsonObjGet t2 k := by
          intro k
          by_cases hk : k = k1
          · subst hk
            rw [jsonObjGet_eq_none_of_not_mem t k (fun p hp => (ne_of_lt (ha.1 p hp)).symm),
              jsonObjGet_eq_none_of_not_mem t2 k (fun p hp => (ne_of_lt (hb.1 p hp)).symm)]
          · have := h k
            simpa [jsonObjGet, hk] using this
        rw [ih ha.2 hb.2 ht]
      · exfalso
        have h1 := h k2
        have h2 : jsonObjGet ((k1, v1) :: t) k2 = none := by
          apply jsonObjGet_eq_none_of_not_mem
          intro p hp
          rcases List.mem_cons.mp hp with h3 | h3
          · simp [h3]; exact (ne_of_lt hgt).symm
          · exact (ne_of_lt (lt_trans hgt (ha.1 p h3))).symm
        rw [h2] at h1
        simp [jsonObjGet] at h1

/-- Keys rejected by a key filter look up to `none` in the filtered object. -/
theorem jsonObjGet_filter_neg (p : String → Bool) (m : JsonObject) (k : String)
    (hk : p k = false) :
    jsonObjGet (m.filter (fun kv => p kv.1)) k = none := by
  apply jsonObjGet_eq_none_of_not_mem
  intro q hq
  intro he
  have := List.of_mem_filter hq
  rw [he, hk] at this
  simp at this

/-- A fold of inserts preserves the sorted-keys invariant. -/
theorem SortedKeys.foldl_insert {m : JsonObject} (h : SortedKeys m)
    (l : JsonObject) :
    SortedKeys (l.foldl (fun acc kv => jsonObjInsert acc kv.1 kv.2) m) := by
  induction l generalizing m with
  | nil => exact h
  | cons hd t ih => exact ih (h.insert hd.1 hd.2)

/-- The serializer always emits a sorted object (the BTreeMap invariant),
whatever the geometry: emission order is deterministic. -/
theorem sortedKeys_to_object (g : Geometry) : SortedKeys (Geometry.to_object g) := by
  obtain ⟨b, f, value, c⟩ := g
  have h0 : SortedKeys [] := List.Pairwise.nil
  cases c <;> cases b <;> cases f <;>
    simp only [Geometry.to_object] <;>
    apply SortedKeys.insert <;>
    apply SortedKeys.insert <;>
    first
      | exact h0
      | exact h0.insert _ _
      | exact (h0.insert _ _).insert _ _
      | exact SortedKeys.foldl_insert h0 _
      | exact SortedKeys.foldl_insert (h0.insert _ _) _
      | exact SortedKeys.foldl_insert ((h0.insert _ _).insert _ _) _

/-- Success inversion for the geometry parser: the typed fields come from
the respective extractors. -/
theorem geometry_from_object_ok_parts {o : JsonObject} {g : Geometry}
    (h : Geometry.from_object o = Except.ok g) :
    get_bbox o = Except.ok g.bbox ∧
    get_foreign_members o = Except.ok g.foreign_members ∧
    get_crs o = Except.ok g.crs ∧
    geometryValueFromObject ((type_of o).toOption.getD "") o = Except.ok g.value := by
  rw [show Geometry.from_object o =
      (match type_of o with
      | Except.error e => Except.error e
      | Except.ok type_ =>
        match geometryValueFromObject type_ o with
        | Except.error e => Except.error e
        | Except.ok value =>
          match get_bbox o with
          | Except.error e => Except.error e
          | Except.ok bbox =>
            match get_foreign_members o with
            | Except.error e => Except.error e
            | Except.ok fm =>
              match get_crs o with
              | Except.error e => Except.error e
              | Except.ok crs => Except.ok (Geometry.mk bbox fm value crs)) from by
    rw [Geometry.from_object]] at h
  split at h
  · simp at h
  · rename_i ty hty
    split at h
    · simp at h
    · rename_i value hval
      split at h
      · simp at h
      · rename_i bbox hbbox
        split at h
        · simp at h
        · rename_i fm hfm
          split at h
          · simp at h
          · rename_i crs hcrs
            injection h with h2
            subst h2
            refine ⟨hbbox, hfm, hcrs, ?_⟩
            simp [Geometry.value, hty, Except.toOption, hval]

/-- Lookup of a non-reserved key in a serialized geometry reads the foreign
members and nothing else. -/
theorem to_object_get_nonreserved (b : Option Bbox) (f : Option JsonObject)
    (value : Value) (c : Option Crs) (k : String)
    (h1 : k ≠ "type") (h2 : k ≠ "coordinates") (h3 : k ≠ "geometries")
    (h4 : k ≠ "bbox") (h5 : k ≠ "crs")
    (hdist : ∀ l, f = some l → l.Pairwise (fun p q => p.1 ≠ q.1)) :
    jsonObjGet (Geometry.to_object (Geometry.mk b f value c)) k =
      match f with
      | some l => jsonObjGet l k
      | none => none := by
  have hpk : k ≠ Value.payloadKey value := by
    cases value <;> simp [Value.payloadKey, h2, h3]
  cases f with
  | none =>
    cases c <;> cases b <;>
      simp [Geometry.to_object, jsonObjGet_insert, hpk, h1, h4, h5, jsonObjGet]
  | some l =>
    have hd := hdist l rfl
    cases c <;> cases b <;>
      simp [Geometry.to_object, jsonObjGet_insert, hpk, h1, h4, h5, jsonObjGet,
        jsonObjGet_foldl_insert l hd]

/-- Any key not consumed by a typed field reads the same through parse-then-
serialize as in the original object. -/
theorem parse_serialize_get_eq (o : JsonObject) (g : Geometry) (k : String)
    (ho : SortedKeys o)
    (hp : Geometry.from_object o = Except.ok g)
    (hk : k ∉ geometryReservedKeys) :
    jsonObjGet (Geometry.to_object g) k = jsonObjGet o k := by
  obtain ⟨-, hfm, -, -⟩ := geometry_from_object_ok_parts hp
  obtain ⟨b, f, value, c⟩ := g
  simp only [Geometry.foreign_members] at hfm
  simp only [get_foreign_members] at hfm
  simp only [geometryReservedKeys, List.mem_cons, List.not_mem_nil, or_false,
    not_or] at hk
  obtain ⟨hk1, hk2, hk3, hk4, hk5⟩ := hk
  have hknr : k ∉ geometryReservedKeys := by
    simp [geometryReservedKeys, hk1, hk2, hk3, hk4, hk5]
  have hfilter : jsonObjGet
      (o.filter (fun kv => decide (kv.1 ∉ geometryReservedKeys))) k =
      jsonObjGet o k :=
    jsonObjGet_filter (fun s => decide (s ∉ geometryReservedKeys)) o k
      (decide_eq_true hknr)
  split at hfm
  · rename_i hemp
    injection hfm with hf
    subst hf
    rw [to_object_get_nonreserved b none value c k hk1 hk2 hk3 hk4 hk5
      (fun l hl => by simp at hl)]
    rw [← hfilter, List.isEmpty_iff.mp hemp]
    rfl
  · rename_i hemp
    injection hfm with hf
    subst hf
    have hsorted : (o.filter (fun kv =>
        decide (kv.1 ∉ geometryReservedKeys))).Pairwise (fun p q => p.1 ≠ q.1) :=
      (List.Pairwise.sublist (List.filter_sublist o) ho).imp
        (fun hpq => ne_of_lt hpq)
    rw [to_object_get_nonreserved b _ value c k hk1 hk2 hk3 hk4 hk5
      (fun l hl => by injection hl with h2; rw [← h2]; exact hsorted)]
    exact hfilter

/-- C8: parsing `{"type":"Point","coordinates":[1.1,2.1],"foo":"bar"}`
succeeds, and the serialized result carries `"foo":"bar"` alongside
`type` and `coordinates`; in general, every key of a sorted input object
not consumed by a typed field (not in the reserved set) reads back
verbatim from the serialization of the parsed geometry. -/
theorem foreign_members_survive_roundtrip :
    (GeoJson.from_str (some (JsonValue.object fooPointObj)) =
        Except.ok (GeoJson.geometry fooPointGeom) ∧
      jsonObjGet (GeoJson.to_object (GeoJson.geometry fooPointGeom)) "foo" =
        some (JsonValue.string "bar") ∧
      jsonObjGet (GeoJson.to_object (GeoJson.geometry fooPointGeom)) "type" =
        some (JsonValue.string "Point") ∧
      jsonObjGet (GeoJson.to_object (GeoJson.geometry fooPointGeom)) "coordinates" =
        some (JsonValue.array [JsonValue.number 1.1, JsonValue.number 2.1])) ∧
    (∀ (o : JsonObject) (g : Geometry) (k : String), SortedKeys o →
      Geometry.from_object o = Except.ok g → k ∉ geometryReservedKeys →
      jsonObjGet (Geometry.to_object g) k = jsonObjGet o k) := by
  constructor
  · refine ⟨?_, ?_, ?_, ?_⟩
    · simp [fooPointObj, fooPointGeom, GeoJson.from_str, get_object,
        GeoJson.from_object, Geometry.from_object, geometryValueFromObject,
        type_of, expect_property, expect_string, jsonObjGet, get_coords_one_pos,
        get_coords_value, json_to_position, expect_array, expect_f64, get_bbox,
        get_foreign_members, get_crs, geometryReservedKeys, Except.map,
        Bind.bind, Except.bind, pure, Except.pure, List.mapM, List.mapM.loop,
        List.filter]
    · simp [fooPointGeom, GeoJson.to_object, Geometry.to_object, Value.toJson,
        Value.typeName, Value.payloadKey, positionToJson, jsonObjInsert, jsonObjGet]
    · simp [fooPointGeom, GeoJson.to_object, Geometry.to_object, Value.toJson,
        Value.typeName, Value.payloadKey, positionToJson, jsonObjInsert, jsonObjGet]
    · simp [fooPointGeom, GeoJson.to_object, Geometry.to_object, Value.toJson,
        Value.typeName, Value.payloadKey, positionToJson, jsonObjInsert, jsonObjGet]
  · exact parse_serialize_get_eq

/-- Witness for C8's general part, at the foo/bar document and key "foo". -/
theorem foreign_members_survive_roundtrip_witness :
    jsonObjGet (Geometry.to_object fooPointGeom) "foo" = jsonObjGet fooPointObj "foo" :=
  foreign_members_survive_roundtrip.2 fooPointObj fooPointGeom "foo"
    (by simp [fooPointObj, SortedKeys, List.pairwise_cons] <;> decide)
    (by simp [fooPointObj, fooPointGeom, Geometry.from_object, geometryValueFromObject,
      type_of, expect_property, expect_string, jsonObjGet, get_coords_one_pos,
      get_coords_value, json_to_position, expect_array, expect_f64, get_bbox,
      get_foreign_members, get_crs, geometryReservedKeys, Except.map,
      Bind.bind, Except.bind, pure, Except.pure, List.mapM, List.mapM.loop,
      List.filter])
    (by simp [geometryReservedKeys])

/-- Lookup of each special key in a serialized geometry, under the foreign-
member invariants (spec §3 invariant 2 and the BTreeMap form). -/
theorem to_object_get_special (b : Option Bbox) (f : Option JsonObject)
    (value : Value) (c : Option Crs)
    (hf : ∀ l, f = some l → ∀ p ∈ l, p.1 ∉ geometryReservedKeys)
    (hdist : ∀ l, f = some l → l.Pairwise (fun p q => p.1 ≠ q.1)) :
    jsonObjGet (Geometry.to_object (Geometry.mk b f value c)) "type" =
      some (JsonValue.string (Value.typeName value)) ∧
    jsonObjGet (Geometry.to_object (Geometry.mk b f value c)) (Value.payloadKey value) =
      some (Value.toJson value) ∧
    jsonObjGet (Geometry.to_object (Geometry.mk b f value c)) "crs" =
      Option.map (fun cc => JsonValue.object (Crs.to_object cc)) c ∧
    jsonObjGet (Geometry.to_object (Geometry.mk b f value c)) "bbox" =
      Option.map (fun bb => JsonValue.array (bb.map JsonValue.number)) b := by
  have htpk : ("type" : String) ≠ Value.payloadKey value := by
    cases value <;> simp [Value.payloadKey]
  have hcpk : ("crs" : String) ≠ Value.payloadKey value := by
    cases value <;> simp [Value.payloadKey]
  have hbpk : ("bbox" : String) ≠ Value.payloadKey value := by
    cases value <;> simp [Value.payloadKey]
  cases f with
  | none =>
    cases c <;> cases b <;>
      simp [Geometry.to_object, jsonObjGet_insert, htpk, hcpk, hbpk, jsonObjGet]
  | some l =>
    have hd := hdist l rfl
    have hlc : jsonObjGet l "crs" = none := by
      apply jsonObjGet_eq_none_of_not_mem
      intro p hp
      have h2 := hf l rfl p hp
      simp [geometryReservedKeys, not_or] at h2
      exact h2.2.2.2.2
    have hlb : jsonObjGet l "bbox" = none := by
      apply jsonObjGet_eq_none_of_not_mem
      intro p hp
      have h2 := hf l rfl p hp
      simp [geometryReservedKeys, not_or] at h2
      exact h2.2.2.2.1
    cases c <;> cases b <;>
      simp [Geometry.to_object, jsonObjGet_insert, htpk, hcpk, hbpk, jsonObjGet,
        jsonObjGet_foldl_insert l hd, hlc, hlb]

/-- C6: serializing a Geometry emits the canonical object: the emission is
deterministic, always a sorted BTreeMap object fully determined by the
value (so it need not match the input's key order), in which `type`
holds the variant's canonical name, the payload sits under `coordinates`
or `geometries` per variant, `crs`/`bbox` appear exactly when present,
every non-reserved key reads exactly the stored foreign member, and the
foreign-member portion of the output of a parse-then-serialize round
trip is the foreign-member portion of the input, in the same stored
order. -/
theorem geometry_serialization_canonical :
    (∀ g : Geometry, SortedKeys (Geometry.to_object g)) ∧
    (∀ (b : Option Bbox) (f : Option JsonObject) (value : Value) (c : Option Crs),
      (∀ l, f = some l → ∀ p ∈ l, p.1 ∉ geometryReservedKeys) →
      (∀ l, f = some l → l.Pairwise (fun p q => p.1 ≠ q.1)) →
      (jsonObjGet (Geometry.to_object (Geometry.mk b f value c)) "type" =
          some (JsonValue.string (Value.typeName value)) ∧
        jsonObjGet (Geometry.to_object (Geometry.mk b f value c))
            (Value.payloadKey value) = some (Value.toJson value) ∧
        jsonObjGet (Geometry.to_object (Geometry.mk b f value c)) "crs" =
          Option.map (fun cc => JsonValue.object (Crs.to_object cc)) c ∧
        jsonObjGet (Geometry.to_object (Geometry.mk b f value c)) "bbox" =
          Option.map (fun bb => JsonValue.array (bb.map JsonValue.number)) b ∧
        ∀ k, k ∉ geometryReservedKeys →
          jsonObjGet (Geometry.to_object (Geometry.mk b f value c)) k =
            (match f with | some l => jsonObjGet l k | none => none))) ∧
    (∀ (o : JsonObject) (g : Geometry), SortedKeys o →
      Geometry.from_object o = Except.ok g →
      (Geometry.to_object g).filter (fun kv => decide (kv.1 ∉ geometryReservedKeys)) =
        o.filter (fun kv => decide (kv.1 ∉ geometryReservedKeys))) := by
  refine ⟨sortedKeys_to_object, ?_, ?_⟩
  · intro b f value c hf hdist
    obtain ⟨h1, h2, h3, h4⟩ := to_object_get_special b f value c hf hdist
    refine ⟨h1, h2, h3, h4, ?_⟩
    intro k hk
    simp only [geometryReservedKeys, List.mem_cons, List.not_mem_nil, or_false,
      not_or] at hk
    obtain ⟨hk1, hk2, hk3, hk4, hk5⟩ := hk
    have h6 := to_object_get_nonreserved b f value c k hk1 hk2 hk3 hk4 hk5 hdist
    cases f <;> simpa using h6
  · intro o g ho hp
    apply sortedKeys_ext
    · exact (List.Pairwise.sublist (List.filter_sublist _) (sortedKeys_to_object g))
    · exact (List.Pairwise.sublist (List.filter_sublist _) ho)
    · intro k
      by_cases hk : k ∈ geometryReservedKeys
      · rw [jsonObjGet_filter_neg (fun s => decide (s ∉ geometryReservedKeys)) _ k
          (by simp [hk]), jsonObjGet_filter_neg (fun s => decide (s ∉ geometryReservedKeys)) _ k
          (by simp [hk])]
      · rw [jsonObjGet_filter (fun s => decide (s ∉ geometryReservedKeys)) _ k
          (decide_eq_true hk), jsonObjGet_filter (fun s => decide (s ∉ geometryReservedKeys)) _ k
          (decide_eq_true hk)]
        exact parse_serialize_get_eq o g k ho hp hk

/-- Witness for C6's conditional parts at the foo/bar Point document: the
special-key reads and the round-trip foreign filter at a concrete input. -/
theorem geometry_serialization_canonical_witness :
    jsonObjGet (Geometry.to_object fooPointGeom) "type" =
      some (JsonValue.string "Point") ∧
    (Geometry.to_object fooPointGeom).filter
        (fun kv => decide (kv.1 ∉ geometryReservedKeys)) =
      fooPointObj.filter (fun kv => decide (kv.1 ∉ geometryReservedKeys)) := by
  constructor
  · exact (geometry_serialization_canonical.2.1 none
      (some [("foo", JsonValue.string "bar")]) (Value.point [1.1, 2.1]) none
      (by intro l hl; injection hl with h2; rw [← h2]; simp [geometryReservedKeys])
      (by intro l hl; injection hl with h2; rw [← h2]; simp)).1
  · exact geometry_serialization_canonical.2.2 fooPointObj fooPointGeom
      (by simp [fooPointObj, SortedKeys, List.pairwise_cons] <;> decide)
      (by simp [fooPointObj, fooPointGeom, Geometry.from_object, geometryValueFromObject,
        type_of, expect_property, expect_string, jsonObjGet, get_coords_one_pos,
        get_coords_value, json_to_position, expect_array, expect_f64, get_bbox,
        get_foreign_members, get_crs, geometryReservedKeys, Except.map,
        Bind.bind, Except.bind, pure, Except.pure, List.mapM, List.mapM.loop,
        List.filter])

/-- `Except.bind` cannot produce an error neither side produces. -/
theorem except_bind_nmj {α β : Type} {x : Except Error α} {f : α → Except Error β}
    (hx : x ≠ Except.error Error.MalformedJson)
    (hf : ∀ a, f a ≠ Except.error Error.MalformedJson) :
    Except.bind x f ≠ Except.error Error.MalformedJson := by
  cases x with
  | error e => simpa [Except.bind] using hx
  | ok a => simpa [Except.bind] using hf a

/-- `Except.map` cannot produce an error its argument does not produce. -/
theorem except_map_nmj {α β : Type} {x : Except Error α} {g : α → β}
    (hx : x ≠ Except.error Error.MalformedJson) :
    Except.map g x ≠ Except.error Error.MalformedJson := by
  cases x with
  | error e => simpa [Except.map] using hx
  | ok a => simp [Except.map]

/-- `require` never reports `MalformedJson`. -/
theorem expect_property_nmj (o : JsonObject) (k : String) :
    expect_property o k ≠ Except.error Error.MalformedJson := by
  cases h : jsonObjGet o k <;> simp [expect_property, h]

/-- `as_string` never reports `MalformedJson`. -/
theorem expect_string_nmj (v : JsonValue) :
    expect_string v ≠ Except.error Error.MalformedJson := by
  cases v <;> simp [expect_string]

/-- `as_object` never reports `MalformedJson`. -/
theorem expect_object_nmj (v : JsonValue) :
    expect_object v ≠ Except.error Error.MalformedJson := by
  cases v <;> simp [expect_object]

/-- `as_array` never reports `MalformedJson`. -/
theorem expect_array_nmj (v : JsonValue) :
    expect_array v ≠ Except.error Error.MalformedJson := by
  cases v <;> simp [expect_array]

/-- `as_f64` never reports `MalformedJson`. -/
theorem expect_f64_nmj (v : JsonValue) :
    expect_f64 v ≠ Except.error Error.MalformedJson := by
  cases v <;> simp [expect_f64]

/-- `type_of` never reports `MalformedJson`. -/
theorem type_of_nmj (o : JsonObject) :
    type_of o ≠ Except.error Error.MalformedJson := by
  simp only [type_of, Bind.bind]
  exact except_bind_nmj (expect_property_nmj o "type") expect_string_nmj

/-- `mapM.loop` cannot produce an error its function does not produce. -/
theorem mapM_loop_nmj {α β : Type} (f : α → Except Error β)
    (hf : ∀ x, f x ≠ Except.error Error.MalformedJson) :
    ∀ (l : List α) (acc : List β),
      List.mapM.loop f l acc ≠ Except.error Error.MalformedJson := by
  intro l
  induction l with
  | nil => intro acc; simp [List.mapM.loop, pure, Except.pure]
  | cons x xs ih =>
    intro acc
    simp only [List.mapM.loop, Bind.bind]
    exact except_bind_nmj (hf x) (fun b => ih (b :: acc))

/-- `mapM` cannot produce an error its function does not produce. -/
theorem mapM_nmj {α β : Type} (f : α → Except Error β)
    (hf : ∀ x, f x ≠ Except.error Error.MalformedJson) (l : List α) :
    List.mapM f l ≠ Except.error Error.MalformedJson := by
  simp only [List.mapM]
  exact mapM_loop_nmj f hf l []

/-- The position walk never reports `MalformedJson`. -/
theorem json_to_position_nmj (v : JsonValue) :
    json_to_position v ≠ Except.error Error.MalformedJson := by
  simp only [json_to_position, Bind.bind]
  exact except_bind_nmj (expect_array_nmj v) (fun a => mapM_nmj expect_f64 expect_f64_nmj a)

/-- Depth-0 coordinates never report `MalformedJson`. -/
theorem get_coords_one_pos_nmj (o : JsonObject) :
    get_coords_one_pos o ≠ Except.error Error.MalformedJson := by
  simp only [get_coords_one_pos, get_coords_value, Bind.bind]
  exact except_bind_nmj (expect_property_nmj o "coordinates") json_to_position_nmj

/-- Depth-1 coordinates never report `MalformedJson`. -/
theorem get_coords_1d_pos_nmj (o : JsonObject) :
    get_coords_1d_pos o ≠ Except.error Error.MalformedJson := by
  simp only [get_coords_1d_pos, get_coords_value, Bind.bind]
  exact except_bind_nmj (expect_property_nmj o "coordinates") (fun v =>
    except_bind_nmj (expect_array_nmj v) (fun a =>
      mapM_nmj json_to_position json_to_position_nmj a))

/-- Depth-2 coordinates never report `MalformedJson`. -/
theorem get_coords_2d_pos_nmj (o : JsonObject) :
    get_coords_2d_pos o ≠ Except.error Error.MalformedJson := by
  simp only [get_coords_2d_pos, get_coords_value, Bind.bind]
  exact except_bind_nmj (expect_property_nmj o "coordinates") (fun v =>
    except_bind_nmj (expect_array_nmj v) (fun a =>
      mapM_nmj _ (fun w =>
        except_bind_nmj (expect_array_nmj w) (fun b =>
          mapM_nmj json_to_position json_to_position_nmj b)) a))

/-- Depth-3 coordinates never report `MalformedJson`. -/
theorem get_coords_3d_pos_nmj (o : JsonObject) :
    get_coords_3d_pos o ≠ Except.error Error.MalformedJson := by
  simp only [get_coords_3d_pos, get_coords_value, Bind.bind]
  exact except_bind_nmj (expect_property_nmj o "coordinates") (fun v =>
    except_bind_nmj (expect_array_nmj v) (fun a =>
      mapM_nmj _ (fun w =>
        except_bind_nmj (expect_array_nmj w) (fun b =>
          mapM_nmj _ (fun u =>
            except_bind_nmj (expect_array_nmj u) (fun d =>
              mapM_nmj json_to_position json_to_position_nmj d)) b)) a))

/-- The bbox extractor never reports `MalformedJson`. -/
theorem get_bbox_nmj (o : JsonObject) :
    get_bbox o ≠ Except.error Error.MalformedJson := by
  simp only [get_bbox]
  split
  · simp
  · apply except_map_nmj
    apply mapM_nmj
    intro x
    cases x <;> simp
  · simp

/-- The CRS parser never reports `MalformedJson`. -/
theorem crs_from_object_nmj (o : JsonObject) :
    Crs.from_object o ≠ Except.error Error.MalformedJson := by
  simp only [Crs.from_object, Bind.bind]
  apply except_bind_nmj (type_of_nmj o)
  intro ty
  apply except_bind_nmj (expect_property_nmj o "properties")
  intro x
  apply except_bind_nmj (expect_object_nmj x)
  intro properties
  split
  · apply except_bind_nmj (expect_property_nmj properties "name")
    intro y
    apply except_bind_nmj (expect_string_nmj y)
    intro name
    simp [pure, Except.pure]
  · apply except_bind_nmj (expect_property_nmj properties "href")
    intro y
    apply except_bind_nmj (expect_string_nmj y)
    intro href
    split
    · apply except_bind_nmj (except_map_nmj (expect_string_nmj _))
      intro t
      simp [pure, Except.pure]
    · apply except_bind_nmj (by simp [pure, Except.pure])
      intro t
      simp [pure, Except.pure]
  · simp

/-- The crs extractor never reports `MalformedJson`. -/
theorem get_crs_nmj (o : JsonObject) :
    get_crs o ≠ Except.error Error.MalformedJson := by
  simp only [get_crs]
  split
  · simp
  · exact except_map_nmj (crs_from_object_nmj _)
  · simp

/-- The foreign-member extractor never reports `MalformedJson`. -/
theorem get_foreign_members_nmj (o : JsonObject) :
    get_foreign_members o ≠ Except.error Error.MalformedJson := by
  simp only [get_foreign_members]
  split <;> simp

/-- An error taken from a source that never produces `MalformedJson` stays
distinct from `MalformedJson` at any result type. -/
theorem error_ne_of_src {α β : Type} {x : Except Error α} {e : Error}
    (hx : x ≠ Except.error Error.MalformedJson) (heq : x = Except.error e) :
    (Except.error e : Except Error β) ≠ Except.error Error.MalformedJson := by
  intro hc
  injection hc with h2
  rw [h2] at heq
  exact hx heq

/-- Size-indexed statement that the recursive geometry parser never reports
`MalformedJson`, simultaneously for objects, value branches and geometry
lists. -/
theorem geometry_parser_nmj_upto (n : Nat) :
    (∀ o : JsonObject, sizeOf o ≤ n →
      Geometry.from_object o ≠ Except.error Error.MalformedJson) ∧
    (∀ (ty : String) (o : JsonObject), sizeOf o ≤ n →
      geometryValueFromObject ty o ≠ Except.error Error.MalformedJson) ∧
    (∀ l : List JsonValue, sizeOf l ≤ n →
      parseGeometryList l ≠ Except.error Error.MalformedJson) := by
  induction n using Nat.strong_induction_on with
  | _ n ih =>
  have hval : ∀ (ty : String) (o : JsonObject), sizeOf o ≤ n →
      geometryValueFromObject ty o ≠ Except.error Error.MalformedJson := by
    intro ty o hsz
    rw [geometryValueFromObject.eq_def]
    split
    all_goals try exact except_map_nmj (get_coords_one_pos_nmj o)
    all_goals try exact except_map_nmj (get_coords_1d_pos_nmj o)
    all_goals try exact except_map_nmj (get_coords_2d_pos_nmj o)
    all_goals try exact except_map_nmj (get_coords_3d_pos_nmj o)
    all_goals try simp
    split <;>
      first
        | simp
        | (rename_i a heq
           apply except_map_nmj
           have ha : sizeOf a < n := by
             have h2 := sizeOf_jsonObjGet heq
             simp at h2
             omega
           exact (ih (sizeOf a) ha).2.2 a le_rfl)
  have hlist : ∀ l : List JsonValue, sizeOf l ≤ n →
      parseGeometryList l ≠ Except.error Error.MalformedJson := by
    intro l hsz
    rw [parseGeometryList.eq_def]
    split
    · simp
    · rename_i go rest
      have hgo : sizeOf go < n := by
        simp at hsz
        omega
      have hrest : sizeOf rest < n := by
        simp at hsz
        omega
      split
      · rename_i e heq
        exact error_ne_of_src ((ih (sizeOf go) hgo).1 go le_rfl) heq
      · split
        · rename_i e heq
          exact error_ne_of_src ((ih (sizeOf rest) hrest).2.2 rest le_rfl) heq
        · simp
    · simp
  have hgeom : ∀ o : JsonObject, sizeOf o ≤ n →
      Geometry.from_object o ≠ Except.error Error.MalformedJson := by
    intro o hsz
    rw [Geometry.from_object]
    split
    · rename_i e heq
      exact error_ne_of_src (type_of_nmj o) heq
    · rename_i ty hty
      split
      · rename_i e heq
        exact error_ne_of_src (hval ty o hsz) heq
      · split
        · rename_i e heq
          exact error_ne_of_src (get_bbox_nmj o) heq
        · split
          · rename_i e heq
            exact error_ne_of_src (get_foreign_members_nmj o) heq
          · split
            · rename_i e heq
              exact error_ne_of_src (get_crs_nmj o) heq
            · simp
  exact ⟨hgeom, hval, hlist⟩

/-- The geometry parser never reports `MalformedJson`. -/
theorem geometry_from_object_nmj (o : JsonObject) :
    Geometry.from_object o ≠ Except.error Error.MalformedJson :=
  (geometry_parser_nmj_upto (sizeOf o)).1 o le_rfl

/-- The feature parser never reports `MalformedJson`. -/
theorem feature_from_object_nmj (o : JsonObject) :
    Feature.from_object o ≠ Except.error Error.MalformedJson := by
  rw [Feature.from_object]
  apply except_bind_nmj
  · split
    · simp
    · simp
    · exact except_map_nmj (geometry_from_object_nmj _)
    · simp
  · intro geometry
    apply except_bind_nmj
    · split <;> simp
    · intro properties
      apply except_bind_nmj
      · split <;> simp
      · intro id
        apply except_bind_nmj (get_bbox_nmj o)
        intro bbox
        apply except_bind_nmj (get_crs_nmj o)
        intro crs
        simp

/-- The feature-collection parser never reports `MalformedJson`. -/
theorem feature_collection_from_object_nmj (o : JsonObject) :
    FeatureCollection.from_object o ≠ Except.error Error.MalformedJson := by
  rw [FeatureCollection.from_object]
  apply except_bind_nmj
  · split
    · simp
    · apply mapM_nmj
      intro v
      split
      · exact feature_from_object_nmj _
      · simp
    · simp
  · intro features
    apply except_bind_nmj (get_bbox_nmj o)
    intro bbox
    apply except_bind_nmj (get_crs_nmj o)
    intro crs
    simp

/-- The top-level dispatcher never reports `MalformedJson`. -/
theorem geojson_from_object_nmj (o : JsonObject) :
    GeoJson.from_object o ≠ Except.error Error.MalformedJson := by
  rw [GeoJson.from_object]
  split
  · rename_i e heq
    exact error_ne_of_src
      (except_bind_nmj (expect_property_nmj o "type") expect_string_nmj) heq
  · split
    · exact except_map_nmj (geometry_from_object_nmj o)
    · exact except_map_nmj (geometry_from_object_nmj o)
    · exact except_map_nmj (geometry_from_object_nmj o)
    · exact except_map_nmj (geometry_from_object_nmj o)
    · exact except_map_nmj (geometry_from_object_nmj o)
    · exact except_map_nmj (geometry_from_object_nmj o)
    · exact except_map_nmj (feature_from_object_nmj o)
    · exact except_map_nmj (feature_collection_from_object_nmj o)
    · simp

/-- C4: the text entry point fails with `MalformedJson` exactly when the
external JSON decode fails (`none`) or the decoded top-level value is
not an object; in every other case the top-level object is handed to the
dispatcher, which never reports `MalformedJson` itself. -/
theorem from_str_malformed_iff (d : Option JsonValue) :
    (GeoJson.from_str d = Except.error Error.MalformedJson ↔
      (d = none ∨ ∃ v, d = some v ∧ ∀ o : JsonObject, v ≠ JsonValue.object o)) ∧
    (∀ o : JsonObject, d = some (JsonValue.object o) →
      GeoJson.from_str d = GeoJson.from_object o) := by
  constructor
  · constructor
    · intro h
      cases d with
      | none => exact Or.inl rfl
      | some v =>
        cases v with
        | object o =>
          exfalso
          rw [GeoJson.from_str] at h
          simp [get_object] at h
          exact geojson_from_object_nmj o h
        | null => exact Or.inr ⟨JsonValue.null, rfl, by simp⟩
        | bool b => exact Or.inr ⟨JsonValue.bool b, rfl, by simp⟩
        | number q => exact Or.inr ⟨JsonValue.number q, rfl, by simp⟩
        | string s => exact Or.inr ⟨JsonValue.string s, rfl, by simp⟩
        | array a => exact Or.inr ⟨JsonValue.array a, rfl, by simp⟩
    · intro h
      rcases h with h | ⟨v, hv, hno⟩
      · subst h
        simp [GeoJson.from_str, get_object]
      · subst hv
        cases v with
        | object o => exact absurd rfl (hno o)
        | null => simp [GeoJson.from_str, get_object]
        | bool b => simp [GeoJson.from_str, get_object]
        | number q => simp [GeoJson.from_str, get_object]
        | string s => simp [GeoJson.from_str, get_object]
        | array a => simp [GeoJson.from_str, get_object]
  · intro o ho
    subst ho
    simp [GeoJson.from_str, get_object]

/-- Witness for C4: a failed decode is `MalformedJson`, and a decoded top-
level object (the Foo document) is handed to the dispatcher. -/
theorem from_str_malformed_iff_witness :
    GeoJson.from_str none = Except.error Error.MalformedJson ∧
    GeoJson.from_str (some (JsonValue.object [("type", JsonValue.string "Foo")])) =
      GeoJson.from_object [("type", JsonValue.string "Foo")] :=
  ⟨(from_str_malformed_iff none).1.mpr (Or.inl rfl),
   (from_str_malformed_iff
      (some (JsonValue.object [("type", JsonValue.string "Foo")]))).2
      [("type", JsonValue.string "Foo")] rfl⟩

/-- Witness for C10 at a concrete value. -/
theorem value_to_json_never_fails_witness :
    Value.toJsonChecked (Value.point [1, 2]) =
      Except.ok (Value.toJson (Value.point [1, 2])) :=
  value_to_json_never_fails (Value.point [1, 2])
